import Mathlib

/-!
Verification of the Ultralight/Ebitengine C bridge (`bridge/ul_bridge.c`)
against its natural-language specification.

The development shallow-embeds the bridge's data model: the fixed-capacity
view-slot table, the per-view input queues, the console and native-message
ring buffers, the asynchronous load-phase state machine driven by
`worker_do_tick`, the dirty-gated BGRA→RGBA pixel copy, and the in-memory
virtual file system.  Engine calls (Ultralight `pfn_*` functions) are
modelled as traces recorded in the state; machine integers are `Int`/`Nat`;
C byte buffers are `Nat → Nat` maps or `List Nat`.
-/

set_option maxRecDepth 8000

namespace UlBridge

/-! ### Constants (`ul_bridge.c`, "Queue and view constants") -/

def MAX_VIEWS : Nat := 16
def CONSOLE_MSG_MAX : Nat := 64
def CONSOLE_MSG_BUFLEN : Nat := 2048
def MSG_QUEUE_MAX : Nat := 64
def MSG_QUEUE_BUFLEN : Nat := 8192
def MOUSE_QUEUE_MAX : Nat := 64
def SCROLL_QUEUE_MAX : Nat := 16
def KEY_QUEUE_MAX : Nat := 32
def KEY_TEXT_LEN : Nat := 32
def JS_QUEUE_MAX : Nat := 32
def JS_QUEUE_BUFLEN : Nat := 8192

/-! ### Queue entry types -/

structure MouseQueueEntry where
  type : Int
  x : Int
  y : Int
  button : Int
deriving Repr, DecidableEq

structure ScrollQueueEntry where
  type : Int
  dx : Int
  dy : Int
deriving Repr, DecidableEq

structure KeyQueueEntry where
  type : Int
  vk : Int
  mods : Nat
  text : String
deriving Repr, DecidableEq

/-- `ULIntRect` returned by `ulSurfaceGetDirtyBounds`. -/
structure ULIntRect where
  left : Int
  top : Int
  right : Int
  bottom : Int
deriving Repr, DecidableEq

/-- The pixel surface attached to a view (`ulViewGetSurface`).  `pixels`
is the byte map returned by `ulSurfaceLockPixels`; `rowBytes` is
`ulSurfaceGetRowBytes`; `dirty` is `ulSurfaceGetDirtyBounds`. -/
structure Surface where
  rowBytes : Nat
  dirty : ULIntRect
  pixels : Nat → Nat

/-- One `ViewSlot` of `g_views`.  Linear queues (`mouse_queue` with
`mouse_count`, …) are lists whose elements are array cells `0..count-1` in
order; the console and native-message ring buffers keep their storage
array (`Nat → _`, indexed mod capacity), head, tail and count exactly as
in the C struct.  `view_live` models `view != NULL`.  The `*_fired` lists
and `loads` record the engine calls (`ulViewFireMouseEvent`,
`ulViewLoadHTML`/`ulViewLoadURL`, …) issued for this slot, in order. -/
structure ViewSlot where
  view_live : Bool
  width : Int
  height : Int
  used : Bool
  surface : Option Surface
  console_msgs : Nat → String
  console_lens : Nat → Nat
  console_head : Nat
  console_tail : Nat
  console_count : Nat
  mouse_queue : List MouseQueueEntry
  scroll_queue : List ScrollQueueEntry
  key_queue : List KeyQueueEntry
  js_queue : List String
  msg_queue : Nat → List Nat
  msg_lens : Nat → Nat
  msg_head : Nat
  msg_tail : Nat
  msg_count : Nat
  load_phase : Nat
  phase_counter : Nat
  pending_load_str : Option String
  pending_is_url : Bool
  js_bound : Bool
  mouse_fired : List MouseQueueEntry
  scroll_fired : List ScrollQueueEntry
  key_fired : List KeyQueueEntry
  js_fired : List String
  loads : List (String × Bool)

/-- The global bridge state: `g_views` (only indices `< MAX_VIEWS` are
meaningful) and `g_view_count`. -/
structure BridgeState where
  views : Nat → ViewSlot
  view_count : Int

/-- Replace the slot at index `i`. -/
def setView (st : BridgeState) (i : Nat) (v : ViewSlot) : BridgeState :=
  { st with views := fun j => if j = i then v else st.views j }

@[simp] theorem setView_views_same (st : BridgeState) (i : Nat) (v : ViewSlot) :
    (setView st i v).views i = v := by
  simp [setView]

theorem setView_views_other (st : BridgeState) (i j : Nat) (v : ViewSlot)
    (h : j ≠ i) : (setView st i v).views j = st.views j := by
  simp [setView, h]

/-- The common guard `view_id < 0 || view_id >= MAX_VIEWS || !g_views[view_id].used`
shared by every exported per-view entry point. -/
def badHandle (st : BridgeState) (id : Int) : Prop :=
  id < 0 ∨ (MAX_VIEWS : Int) ≤ id ∨ (st.views id.toNat).used = false

instance (st : BridgeState) (id : Int) : Decidable (badHandle st id) := by
  unfold badHandle; infer_instance

/-! ### Calling-thread queue pushes (`ul_view_fire_mouse` … `ul_view_eval_js`).
Each slot-level push mirrors the body after the handle guard. -/

def fire_mouse_slot (v : ViewSlot) (e : MouseQueueEntry) : ViewSlot :=
  if MOUSE_QUEUE_MAX ≤ v.mouse_queue.length then v
  else { v with mouse_queue := v.mouse_queue ++ [e] }

def fire_scroll_slot (v : ViewSlot) (e : ScrollQueueEntry) : ViewSlot :=
  if SCROLL_QUEUE_MAX ≤ v.scroll_queue.length then v
  else { v with scroll_queue := v.scroll_queue ++ [e] }

/-- `ul_view_fire_key` truncates `text` to `KEY_TEXT_LEN - 1` bytes. -/
def fire_key_slot (v : ViewSlot) (e : KeyQueueEntry) : ViewSlot :=
  if KEY_QUEUE_MAX ≤ v.key_queue.length then v
  else { v with key_queue := v.key_queue ++ [{ e with text := e.text.take (KEY_TEXT_LEN - 1) }] }

/-- `ul_view_eval_js`: additionally rejects scripts of length `≥ JS_QUEUE_BUFLEN`. -/
def eval_js_slot (v : ViewSlot) (js : String) : ViewSlot :=
  if JS_QUEUE_MAX ≤ v.js_queue.length then v
  else if JS_QUEUE_BUFLEN ≤ js.length then v
  else { v with js_queue := v.js_queue ++ [js] }

def ul_view_fire_mouse (st : BridgeState) (id : Int) (e : MouseQueueEntry) : BridgeState :=
  if badHandle st id then st
  else setView st id.toNat (fire_mouse_slot (st.views id.toNat) e)

def ul_view_fire_scroll (st : BridgeState) (id : Int) (e : ScrollQueueEntry) : BridgeState :=
  if badHandle st id then st
  else setView st id.toNat (fire_scroll_slot (st.views id.toNat) e)

def ul_view_fire_key (st : BridgeState) (id : Int) (e : KeyQueueEntry) : BridgeState :=
  if badHandle st id then st
  else setView st id.toNat (fire_key_slot (st.views id.toNat) e)

def ul_view_eval_js (st : BridgeState) (id : Int) (js : String) : BridgeState :=
  if badHandle st id then st
  else setView st id.toNat (eval_js_slot (st.views id.toNat) js)

/-! ### Console / native-message ring buffers -/

/-- `console_message_cb` body after the guards (non-empty message data):
if the ring is full, evict the oldest (advance tail, decrement count);
then store the message, truncated to `CONSOLE_MSG_BUFLEN - 1` bytes, at
head, and advance head / increment count. -/
def console_push_slot (v : ViewSlot) (msg : String) : ViewSlot :=
  let v1 :=
    if CONSOLE_MSG_MAX ≤ v.console_count then
      { v with console_tail := (v.console_tail + 1) % CONSOLE_MSG_MAX
               console_count := v.console_count - 1 }
    else v
  let stored := msg.take (CONSOLE_MSG_BUFLEN - 1)
  { v1 with
    console_msgs := fun i => if i = v1.console_head then stored else v1.console_msgs i
    console_lens := fun i => if i = v1.console_head then stored.length else v1.console_lens i
    console_head := (v1.console_head + 1) % CONSOLE_MSG_MAX
    console_count := v1.console_count + 1 }

/-- `console_message_cb` with its `vid` / `used` / empty-message guards. -/
def console_message_cb (st : BridgeState) (vid : Int) (msg : String) : BridgeState :=
  if vid < 0 ∨ (MAX_VIEWS : Int) ≤ vid ∨ (st.views vid.toNat).used = false then st
  else if msg = "" then st
  else setView st vid.toNat (console_push_slot (st.views vid.toNat) msg)

/-- `jsc_goSend_callback` push, after the view has been matched by cached
JS context: the message (a UTF-8 byte string) is stored only if the queue
is not full *and* the engine-reported maximum UTF-8 size (`maxLen`, an
upper bound that includes the trailing NUL) is `< MSG_QUEUE_BUFLEN`;
otherwise the new message is dropped and the slot is unchanged.
`JSStringGetUTF8CString` writes at most `MSG_QUEUE_BUFLEN - 1` bytes. -/
def goSend_push_slot (v : ViewSlot) (m : List Nat) (maxLen : Nat) : ViewSlot :=
  if v.msg_count < MSG_QUEUE_MAX ∧ maxLen < MSG_QUEUE_BUFLEN then
    let written := m.take (MSG_QUEUE_BUFLEN - 1)
    { v with
      msg_queue := fun i => if i = v.msg_head then written else v.msg_queue i
      msg_lens := fun i => if i = v.msg_head then written.length else v.msg_lens i
      msg_head := (v.msg_head + 1) % MSG_QUEUE_MAX
      msg_count := v.msg_count + 1 }
  else v

/-- The live contents of the console ring, oldest first. -/
def consoleList (v : ViewSlot) : List String :=
  (List.range v.console_count).map
    (fun k => v.console_msgs ((v.console_tail + k) % CONSOLE_MSG_MAX))

/-! ### Worker-side view lifecycle -/

/-- Fields common to all three create paths (`worker_do_create_view`,
`worker_do_create_and_load`, `worker_do_create_with_content`): engine view
and surface created, dimensions set, `used`, `js_bound=false`, all queue
counts reset.  Ring-buffer *storage* is not cleared (the C code only
resets heads/tails/counts); trace fields start empty. -/
def initSlot (v0 : ViewSlot) (w h : Int) (surf : Surface) : ViewSlot :=
  { v0 with
    view_live := true
    surface := some surf
    width := w
    height := h
    used := true
    js_bound := false
    console_head := 0, console_tail := 0, console_count := 0
    msg_head := 0, msg_tail := 0, msg_count := 0
    mouse_queue := [], scroll_queue := [], key_queue := [], js_queue := []
    mouse_fired := [], scroll_fired := [], key_fired := [], js_fired := []
    loads := [] }

/-- First free slot index, as scanned by the create functions. -/
def firstFree (st : BridgeState) : Option Nat :=
  (List.range MAX_VIEWS).find? (fun i => !(st.views i).used)

/-- `worker_do_create_and_load` (async create): initialize the slot, stash
the content for deferred loading, enter phase `Priming` (=1) with the
counter at 0, and return the slot id immediately.  `surf` stands for the
engine-provided `ulViewGetSurface` result. -/
def worker_do_create_and_load (st : BridgeState) (w h : Int) (str : String)
    (is_url : Bool) (surf : Surface) : Int × BridgeState :=
  match firstFree st with
  | none => (-1, st)
  | some vid =>
    let v := { initSlot (st.views vid) w h surf with
               pending_load_str := some str
               pending_is_url := is_url
               load_phase := 1
               phase_counter := 0 }
    ((vid : Int), { setView st vid v with view_count := st.view_count + 1 })

/-- `ul_create_view_async` (the `url`-pointer and worker-started guards of
the export concern C `NULL` and process bring-up, which have no
counterpart in the model). -/
def ul_create_view_async (st : BridgeState) (w h : Int) (url : String)
    (surf : Surface) : Int × BridgeState :=
  worker_do_create_and_load st w h url true surf

/-- `worker_do_destroy_view`: guarded by range and `used`; releases the
engine view, frees pending content, resets the phase, frees the slot. -/
def worker_do_destroy_view (st : BridgeState) (vid : Int) : BridgeState :=
  if vid < 0 ∨ (MAX_VIEWS : Int) ≤ vid ∨ (st.views vid.toNat).used = false then st
  else
    let v := st.views vid.toNat
    { setView st vid.toNat
        { v with view_live := false, surface := none, used := false,
                 js_bound := false, load_phase := 0, pending_load_str := none }
      with view_count := st.view_count - 1 }

/-- `ul_destroy_view` export: range guard, then the worker command. -/
def ul_destroy_view (st : BridgeState) (id : Int) : BridgeState :=
  if id < 0 ∨ (MAX_VIEWS : Int) ≤ id then st
  else worker_do_destroy_view st id

/-- `worker_do_load`: guarded by range and `used`; issues the engine load
call (recorded in `loads`), runs updates/render, and re-installs the JS
bindings (`setup_js_bindings` sets `js_bound := true`). -/
def worker_do_load (st : BridgeState) (vid : Int) (str : String) (is_url : Bool) :
    BridgeState :=
  if vid < 0 ∨ (MAX_VIEWS : Int) ≤ vid ∨ (st.views vid.toNat).used = false then st
  else
    let v := st.views vid.toNat
    setView st vid.toNat { v with loads := v.loads ++ [(str, is_url)], js_bound := true }

/-- `ul_view_load_html` export: range guard, then the worker command. -/
def ul_view_load_html (st : BridgeState) (id : Int) (html : String) : BridgeState :=
  if id < 0 ∨ (MAX_VIEWS : Int) ≤ id then st
  else worker_do_load st id html false

/-- `ul_view_load_url` export: range guard, then the worker command. -/
def ul_view_load_url (st : BridgeState) (id : Int) (url : String) : BridgeState :=
  if id < 0 ∨ (MAX_VIEWS : Int) ≤ id then st
  else worker_do_load st id url true

/-! ### `worker_do_tick` -/

/-- The async-load phase advance for one slot (first loop of
`worker_do_tick`): skip slots that are free or `Ready`; increment the
phase counter; on `Priming` with counter ≥ 2 submit the pending content
(engine load call, recorded in `loads`), free it, and enter
`ContentPending` with the counter reset; on `ContentPending` with counter
≥ 3 install the JS bindings and become `Ready`. -/
def tick_phase_slot (v : ViewSlot) : ViewSlot :=
  if v.used = false ∨ v.load_phase = 0 then v
  else
    if v.load_phase = 1 ∧ 2 ≤ v.phase_counter + 1 then
      { v with
        loads := match v.pending_load_str with
                 | some s => v.loads ++ [(s, v.pending_is_url)]
                 | none => v.loads
        pending_load_str := none
        load_phase := 2
        phase_counter := 0 }
    else if v.load_phase = 2 ∧ 3 ≤ v.phase_counter + 1 then
      { v with js_bound := true, load_phase := 0, phase_counter := v.phase_counter + 1 }
    else { v with phase_counter := v.phase_counter + 1 }

/-- Clamp queued mouse coordinates into `[0,width) × [0,height)`
(`worker_do_tick` drain loop). -/
def clampMouse (w h : Int) (e : MouseQueueEntry) : MouseQueueEntry :=
  let x0 := if e.x < 0 then 0 else e.x
  let y0 := if e.y < 0 then 0 else e.y
  let x1 := if 0 < w ∧ w ≤ x0 then w - 1 else x0
  let y1 := if 0 < h ∧ h ≤ y0 then h - 1 else y0
  { e with x := x1, y := y1 }

/-- Key-event type mapping into the SDK enum
(0=RawKeyDown,1=KeyDown,2=KeyUp,3=Char → 2,0,1,3). -/
def mapKeyType (t : Int) : Int :=
  if t = 0 then 2 else if t = 1 then 0 else if t = 2 then 1 else 3

/-- The per-slot queue drain (second loop of `worker_do_tick`): skip free
slots and slots with no engine view; retry the JS bindings when unbound
and not mid-load; fire all queued mouse (clamped), scroll, key (type
mapped) and script entries in order; reset every queue count to zero. -/
def drain_slot (v : ViewSlot) : ViewSlot :=
  if v.used = false ∨ v.view_live = false then v
  else
    { v with
      js_bound := if v.js_bound = false ∧ v.load_phase = 0 then true else v.js_bound
      mouse_fired := v.mouse_fired ++ v.mouse_queue.map (clampMouse v.width v.height)
      mouse_queue := []
      scroll_fired := v.scroll_fired ++ v.scroll_queue
      scroll_queue := []
      key_fired := v.key_fired ++ v.key_queue.map
        (fun e => { e with type := mapKeyType e.type })
      key_queue := []
      js_fired := v.js_fired ++ v.js_queue
      js_queue := [] }

/-- `worker_do_tick`: the phase loop over all slots, then the drain loop
over all slots (each loop body touches only its own slot, so the loops
are slot-wise maps), then one global `ulUpdate`/`ulRender` cycle. -/
def worker_do_tick (st : BridgeState) : BridgeState :=
  let st1 := { st with views := fun i =>
    if i < MAX_VIEWS then tick_phase_slot (st.views i) else st.views i }
  { st1 with views := fun i =>
    if i < MAX_VIEWS then drain_slot (st1.views i) else st1.views i }

/-- The effect of one tick on one slot (phase advance then drain). -/
def tickSlot (v : ViewSlot) : ViewSlot := drain_slot (tick_phase_slot v)

theorem worker_do_tick_views (st : BridgeState) (i : Nat) (h : i < MAX_VIEWS) :
    (worker_do_tick st).views i = tickSlot (st.views i) := by
  simp [worker_do_tick, tickSlot, h]

/-! ### Exported query / pop operations -/

/-- `ul_view_is_ready`: 1 iff the slot is used and its load phase is 0. -/
def ul_view_is_ready (st : BridgeState) (id : Int) : Int :=
  if badHandle st id then 0
  else if (st.views id.toNat).load_phase = 0 then 1 else 0

/-- `ul_view_get_width` (0 on a bad handle). -/
def ul_view_get_width (st : BridgeState) (id : Int) : Int :=
  if badHandle st id then 0 else (st.views id.toNat).width

/-- `ul_view_get_height` (0 on a bad handle). -/
def ul_view_get_height (st : BridgeState) (id : Int) : Int :=
  if badHandle st id then 0 else (st.views id.toNat).height

/-- `ul_view_get_row_bytes` (0 on a bad handle or missing surface). -/
def ul_view_get_row_bytes (st : BridgeState) (id : Int) : Nat :=
  if badHandle st id then 0
  else match (st.views id.toNat).surface with
       | none => 0
       | some s => s.rowBytes

/-- `ul_view_get_pixels`: `ulSurfaceLockPixels` result, `NULL` (`none`)
on a bad handle or missing surface. -/
def ul_view_get_pixels (st : BridgeState) (id : Int) : Option (Nat → Nat) :=
  if badHandle st id then none
  else match (st.views id.toNat).surface with
       | none => none
       | some s => some s.pixels

/-- `ul_view_get_message`: pop the oldest native message; result is
(copied length, copied bytes, new state).  At most `buf_size - 1` bytes
are copied into the caller's buffer. -/
def ul_view_get_message (st : BridgeState) (id : Int) (buf_size : Int) :
    Int × List Nat × BridgeState :=
  if badHandle st id ∨ buf_size ≤ 0 then (0, [], st)
  else if (st.views id.toNat).msg_count = 0 then (0, [], st)
  else
    (((min ((st.views id.toNat).msg_lens (st.views id.toNat).msg_tail)
         (buf_size.toNat - 1) : Nat) : Int),
     ((st.views id.toNat).msg_queue (st.views id.toNat).msg_tail).take
       (min ((st.views id.toNat).msg_lens (st.views id.toNat).msg_tail) (buf_size.toNat - 1)),
     setView st id.toNat
       { st.views id.toNat with
         msg_tail := ((st.views id.toNat).msg_tail + 1) % MSG_QUEUE_MAX
         msg_count := (st.views id.toNat).msg_count - 1 })

/-- `ul_view_get_console_message`: pop the oldest console message; at
most `buf_size - 1` bytes are copied. -/
def ul_view_get_console_message (st : BridgeState) (id : Int) (buf_size : Int) :
    Int × String × BridgeState :=
  if badHandle st id ∨ buf_size ≤ 0 then (0, "", st)
  else if (st.views id.toNat).console_count = 0 then (0, "", st)
  else
    (((min ((st.views id.toNat).console_lens (st.views id.toNat).console_tail)
         (buf_size.toNat - 1) : Nat) : Int),
     ((st.views id.toNat).console_msgs (st.views id.toNat).console_tail).take
       (min ((st.views id.toNat).console_lens (st.views id.toNat).console_tail)
         (buf_size.toNat - 1)),
     setView st id.toNat
       { st.views id.toNat with
         console_tail := ((st.views id.toNat).console_tail + 1) % CONSOLE_MSG_MAX
         console_count := (st.views id.toNat).console_count - 1 })

/-- Go-side `pollMessage` (`bridge.go`): calls `ul_view_get_message` with
a fixed 2048-byte buffer; a non-positive copied length means "no
message". -/
def pollMessage (st : BridgeState) (id : Int) : (Option (List Nat)) × BridgeState :=
  if (ul_view_get_message st id 2048).1 ≤ 0 then (none, (ul_view_get_message st id 2048).2.2)
  else (some (ul_view_get_message st id 2048).2.1, (ul_view_get_message st id 2048).2.2)

/-! ### `ul_view_copy_pixels_rgba` -/

/-- Byte `i` of the converted destination buffer: pixel `i / 4` is at
destination row `p / w`, column `p % w`; source bytes are read at
`row * rowBytes + col * 4`, reordered BGRA → RGBA. -/
def convByte (surf : Surface) (w : Nat) (i : Nat) : Nat :=
  match i % 4 with
  | 0 => surf.pixels ((i / 4 / w) * surf.rowBytes + (i / 4 % w) * 4 + 2)
  | 1 => surf.pixels ((i / 4 / w) * surf.rowBytes + (i / 4 % w) * 4 + 1)
  | 2 => surf.pixels ((i / 4 / w) * surf.rowBytes + (i / 4 % w) * 4)
  | _ => surf.pixels ((i / 4 / w) * surf.rowBytes + (i / 4 % w) * 4 + 3)

/-- `ul_view_copy_pixels_rgba handle dest dest_size` returns the C result
(1 = copied, 0 = no-op), the destination buffer after the call, and the
new bridge state.  Guard order follows the C code: handle guard, dirty
bounds empty, lock, size check, convert, unlock, clear dirty bounds. -/
def ul_view_copy_pixels_rgba (st : BridgeState) (id : Int) (dest : Nat → Nat)
    (dest_size : Int) : Int × (Nat → Nat) × BridgeState :=
  if badHandle st id then (0, dest, st)
  else
    match (st.views id.toNat).surface with
    | none => (0, dest, st)
    | some surf =>
      if surf.dirty.right ≤ surf.dirty.left ∨ surf.dirty.bottom ≤ surf.dirty.top then
        (0, dest, st)
      else
        if dest_size < (st.views id.toNat).width * (st.views id.toNat).height * 4 then
          (0, dest, st)
        else
          (1,
           fun i : Nat =>
             if 0 < (st.views id.toNat).width ∧ 0 < (st.views id.toNat).height ∧
                (i : Int) < (st.views id.toNat).width * (st.views id.toNat).height * 4 then
               convByte surf (st.views id.toNat).width.toNat i
             else dest i,
           setView st id.toNat
             { st.views id.toNat with
               surface := some { surf with dirty := ⟨0, 0, 0, 0⟩ } })

/-! ### Virtual file system -/

def VFS_MAX_FILES : Nat := 256
def VFS_PATH_MAX : Nat := 512

/-- `vfs_normalize_path`: truncate the source to the destination capacity
(`VFS_PATH_MAX - 1` bytes), strip a leading `file:///` (only when the
truncated length is strictly greater than 8), convert every backslash to
a forward slash, then strip all leading slashes. -/
def vfs_normalize_path (src : List Char) : List Char :=
  let len := min src.length (VFS_PATH_MAX - 1)
  let body := src.take len
  let afterPrefix :=
    if 8 < len ∧ body.take 8 = "file:///".toList then body.drop 8 else body
  let slashed := afterPrefix.map (fun c => if c = '\\' then '/' else c)
  slashed.dropWhile (fun c => c = '/')

/-- One `VfsEntry` of `g_vfs_files`: normalized key and an owned copy of
the bytes. -/
structure VfsEntry where
  path : List Char
  data : List Nat
deriving Repr, DecidableEq

/-- `vfs_find` followed by in-place overwrite of the found entry's data
(the overwrite branch of `ul_vfs_register`): replace the data of the
*first* entry whose key matches. -/
def vfs_overwrite : List VfsEntry → List Char → List Nat → List VfsEntry
  | [], _, _ => []
  | e :: t, key, d =>
    if e.path = key then { e with data := d } :: t
    else e :: vfs_overwrite t key d

/-- `ul_vfs_register` (the `path`/`data` NULL and `size < 0` guards
concern C pointers and have no counterpart here): normalize, overwrite
the first matching entry if one exists, otherwise append — failing with
-3 when the table is full.  Returns the C result code and the new table. -/
def ul_vfs_register (l : List VfsEntry) (path : List Char) (data : List Nat) :
    Int × List VfsEntry :=
  if l.any (fun e => e.path = vfs_normalize_path path) then
    (0, vfs_overwrite l (vfs_normalize_path path) data)
  else if VFS_MAX_FILES ≤ l.length then (-3, l)
  else (0, l ++ [{ path := vfs_normalize_path path, data := data }])

/-- Outcome of `vfs_cb_open_file`: a NULL return on an empty normalized
path, a zero-copy buffer of a registered entry's bytes on a VFS hit, or
the disk-fallback read (outside the in-memory table modelled here). -/
inductive VfsOpenResult where
  | nullPath : VfsOpenResult
  | vfsHit : List Nat → VfsOpenResult
  | diskFallback : List Char → VfsOpenResult
deriving Repr, DecidableEq

/-- `vfs_cb_open_file` resolution against the in-memory table: normalize
(`vfs_extract_path`), reject an empty key, else return the first
matching entry's bytes, else fall back to disk under the same key. -/
def vfs_cb_open_file (l : List VfsEntry) (path : List Char) : VfsOpenResult :=
  if vfs_normalize_path path = [] then .nullPath
  else match l.find? (fun e => e.path = vfs_normalize_path path) with
       | some e => .vfsHit e.data
       | none => .diskFallback (vfs_normalize_path path)

/-- `ul_vfs_clear`. -/
def ul_vfs_clear (_l : List VfsEntry) : List VfsEntry := []

/-- `ul_vfs_count`. -/
def ul_vfs_count (l : List VfsEntry) : Nat := l.length

/-- The slot freshly initialized by `worker_do_create_and_load` for
content `url` with `pending_is_url = true` (the `ul_create_view_async`
path). -/
def asyncInitSlot (v0 : ViewSlot) (w h : Int) (url : String) (surf : Surface) : ViewSlot :=
  { initSlot v0 w h surf with
    pending_load_str := some url
    pending_is_url := true
    load_phase := 1
    phase_counter := 0 }

/-- The slot of view `vid`, `n` ticks after an asynchronous create. -/
def asyncSlotAt (st : BridgeState) (w h : Int) (url : String) (surf : Surface)
    (vid n : Nat) : ViewSlot :=
  (worker_do_tick^[n] (ul_create_view_async st w h url surf).2).views vid

/-- The phase schedule claimed for the asynchronous create: `Priming`
immediately, `ContentPending` with the pending content submitted and
freed after exactly 2 ticks, `Ready` with JS bindings installed after 3
more, readiness query false before and true at/after that point. -/
def C1Concl (st : BridgeState) (w h : Int) (url : String) (surf : Surface) (vid : Nat) : Prop :=
  (ul_create_view_async st w h url surf).1 = (vid : Int) ∧
  (asyncSlotAt st w h url surf vid 0).load_phase = 1 ∧
  (asyncSlotAt st w h url surf vid 0).phase_counter = 0 ∧
  (asyncSlotAt st w h url surf vid 0).pending_load_str = some url ∧
  (asyncSlotAt st w h url surf vid 0).loads = [] ∧
  (asyncSlotAt st w h url surf vid 1).load_phase = 1 ∧
  (asyncSlotAt st w h url surf vid 1).phase_counter = 1 ∧
  (asyncSlotAt st w h url surf vid 2).load_phase = 2 ∧
  (asyncSlotAt st w h url surf vid 2).phase_counter = 0 ∧
  (asyncSlotAt st w h url surf vid 2).pending_load_str = none ∧
  (asyncSlotAt st w h url surf vid 2).loads = [(url, true)] ∧
  (asyncSlotAt st w h url surf vid 3).load_phase = 2 ∧
  (asyncSlotAt st w h url surf vid 4).load_phase = 2 ∧
  (asyncSlotAt st w h url surf vid 5).load_phase = 0 ∧
  (asyncSlotAt st w h url surf vid 5).js_bound = true ∧
  (∀ n : Nat, n ≤ 4 →
    ul_view_is_ready (worker_do_tick^[n] (ul_create_view_async st w h url surf).2)
      (vid : Int) = 0) ∧
  (∀ n : Nat, 5 ≤ n →
    ul_view_is_ready (worker_do_tick^[n] (ul_create_view_async st w h url surf).2)
      (vid : Int) = 1)

/-! ### Concrete fixtures (used by witnesses and counterexamples) -/

/-- A zeroed view slot, as left by `memset(g_views, 0, …)`. -/
def emptySlot : ViewSlot :=
  { view_live := false, width := 0, height := 0, used := false, surface := none
    console_msgs := fun _ => "", console_lens := fun _ => 0
    console_head := 0, console_tail := 0, console_count := 0
    mouse_queue := [], scroll_queue := [], key_queue := [], js_queue := []
    msg_queue := fun _ => [], msg_lens := fun _ => 0
    msg_head := 0, msg_tail := 0, msg_count := 0
    load_phase := 0, phase_counter := 0
    pending_load_str := none, pending_is_url := false, js_bound := false
    mouse_fired := [], scroll_fired := [], key_fired := [], js_fired := []
    loads := [] }

/-- The bridge state right after `worker_do_init`. -/
def emptyBridge : BridgeState := { views := fun _ => emptySlot, view_count := 0 }

/-- A 2×1 surface with row padding (`rowBytes = 12 > width*4`) and a
non-empty dirty region. -/
def testSurf : Surface :=
  { rowBytes := 12, dirty := ⟨0, 0, 2, 1⟩, pixels := fun i => (i + 1) % 256 }

/-- A live, ready 2×1 view slot backed by `testSurf`. -/
def readySlot : ViewSlot :=
  { emptySlot with view_live := true, used := true, width := 2, height := 1,
                   surface := some testSurf }

/-- A bridge state whose slot 0 is `readySlot`. -/
def readyBridge : BridgeState :=
  { views := fun i => if i = 0 then readySlot else emptySlot, view_count := 1 }

/-- A used slot whose console ring and native-message queue are both full
and whose input queues are all at capacity. -/
def fullSlot : ViewSlot :=
  { readySlot with
    console_msgs := fun _ => "old", console_lens := fun _ => 3
    console_head := 0, console_tail := 0, console_count := CONSOLE_MSG_MAX
    msg_queue := fun _ => [1, 2, 3], msg_lens := fun _ => 3
    msg_head := 0, msg_tail := 0, msg_count := MSG_QUEUE_MAX
    mouse_queue := List.replicate MOUSE_QUEUE_MAX ⟨0, 1, 2, 0⟩
    scroll_queue := List.replicate SCROLL_QUEUE_MAX ⟨0, 0, 1⟩
    key_queue := List.replicate KEY_QUEUE_MAX ⟨0, 13, 0, ""⟩
    js_queue := List.replicate JS_QUEUE_MAX "1" }

/-- A bridge state whose slot 0 is `fullSlot`. -/
def fullBridge : BridgeState :=
  { views := fun i => if i = 0 then fullSlot else emptySlot, view_count := 1 }

/-- A used slot whose front native message is 4000 bytes long. -/
def longMsgSlot : ViewSlot :=
  { readySlot with
    msg_queue := fun _ => List.replicate 4000 65
    msg_lens := fun _ => 4000
    msg_head := 1, msg_tail := 0, msg_count := 1 }

/-- A bridge state whose slot 0 is `longMsgSlot`. -/
def longMsgBridge : BridgeState :=
  { views := fun i => if i = 0 then longMsgSlot else emptySlot, view_count := 1 }

/-! ### Helper lemmas -/

theorem setView_self (st : BridgeState) (i : Nat) :
    setView st i (st.views i) = st := by
  cases st with
  | mk views vc =>
    simp only [setView]
    congr 1
    funext j
    by_cases h : j = i <;> simp [h]

theorem firstFree_lt (st : BridgeState) (vid : Nat)
    (h : firstFree st = some vid) : vid < MAX_VIEWS := by
  have hm := List.mem_of_find?_eq_some h
  simpa using List.mem_range.mp hm

theorem firstFree_unused (st : BridgeState) (vid : Nat)
    (h : firstFree st = some vid) : (st.views vid).used = false := by
  have hp := List.find?_some h
  simpa using hp

theorem tick_phase_slot_preserves (v : ViewSlot) :
    (tick_phase_slot v).used = v.used ∧
    (tick_phase_slot v).view_live = v.view_live ∧
    (tick_phase_slot v).width = v.width ∧
    (tick_phase_slot v).height = v.height ∧
    (tick_phase_slot v).mouse_queue = v.mouse_queue ∧
    (tick_phase_slot v).scroll_queue = v.scroll_queue ∧
    (tick_phase_slot v).key_queue = v.key_queue ∧
    (tick_phase_slot v).js_queue = v.js_queue ∧
    (tick_phase_slot v).mouse_fired = v.mouse_fired ∧
    (tick_phase_slot v).scroll_fired = v.scroll_fired ∧
    (tick_phase_slot v).key_fired = v.key_fired ∧
    (tick_phase_slot v).js_fired = v.js_fired := by
  unfold tick_phase_slot
  split_ifs <;> simp

theorem tickSlot_preserves_ready (v : ViewSlot)
    (hu : v.used = true) (hp : v.load_phase = 0) :
    (tickSlot v).used = true ∧ (tickSlot v).load_phase = 0 := by
  unfold tickSlot tick_phase_slot drain_slot
  split_ifs <;> simp_all

theorem tickSlot_iter_preserves_ready (v : ViewSlot) (n : Nat)
    (hu : v.used = true) (hp : v.load_phase = 0) :
    (tickSlot^[n] v).used = true ∧ (tickSlot^[n] v).load_phase = 0 := by
  induction n generalizing v with
  | zero => exact ⟨hu, hp⟩
  | succ n ih =>
    rw [Function.iterate_succ_apply]
    exact ih _ (tickSlot_preserves_ready v hu hp).1 (tickSlot_preserves_ready v hu hp).2

theorem worker_do_tick_iter_views (st : BridgeState) (i : Nat) (h : i < MAX_VIEWS)
    (n : Nat) : (worker_do_tick^[n] st).views i = tickSlot^[n] (st.views i) := by
  induction n generalizing st with
  | zero => rfl
  | succ n ih =>
    rw [Function.iterate_succ_apply, Function.iterate_succ_apply, ih,
        worker_do_tick_views st i h]

/-- C8: For a handle that is negative, out of range, or whose slot is not
in use, every exported per-view operation is a silent no-op with a
zero/NULL/empty result and an unchanged state; and destroying the same
handle twice is the same as destroying it once. -/
theorem claim_C8_handle_safety (st : BridgeState) (id : Int) (h : badHandle st id) :
    ul_destroy_view st id = st ∧
    (∀ s, ul_view_load_html st id s = st) ∧
    (∀ s, ul_view_load_url st id s = st) ∧
    (∀ e, ul_view_fire_mouse st id e = st) ∧
    (∀ e, ul_view_fire_scroll st id e = st) ∧
    (∀ e, ul_view_fire_key st id e = st) ∧
    (∀ s, ul_view_eval_js st id s = st) ∧
    (∀ n, ul_view_get_message st id n = (0, [], st)) ∧
    (∀ n, ul_view_get_console_message st id n = (0, "", st)) ∧
    ul_view_get_pixels st id = none ∧
    ul_view_get_width st id = 0 ∧
    ul_view_get_height st id = 0 ∧
    ul_view_get_row_bytes st id = 0 ∧
    ul_view_is_ready st id = 0 ∧
    (∀ dest n, ul_view_copy_pixels_rgba st id dest n = (0, dest, st)) ∧
    (∀ (st' : BridgeState) (id' : Int),
      ul_destroy_view (ul_destroy_view st' id') id' = ul_destroy_view st' id') := by
  refine ⟨?_, ?_, ?_, ?_, ?_, ?_, ?_, ?_, ?_, ?_, ?_, ?_, ?_, ?_, ?_, ?_⟩
  · rcases h with h1 | h2 | h3
    · simp [ul_destroy_view, h1]
    · simp [ul_destroy_view, h2]
    · by_cases hr : id < 0 ∨ (MAX_VIEWS : Int) ≤ id
      · simp [ul_destroy_view, hr]
      · simp [ul_destroy_view, hr, worker_do_destroy_view, h3]
  · intro s
    by_cases hr : id < 0 ∨ (MAX_VIEWS : Int) ≤ id
    · simp [ul_view_load_html, hr]
    · rcases h with h1 | h2 | h3
      · exact absurd (Or.inl h1) hr
      · exact absurd (Or.inr h2) hr
      · simp [ul_view_load_html, hr, worker_do_load, h3]
  · intro s
    by_cases hr : id < 0 ∨ (MAX_VIEWS : Int) ≤ id
    · simp [ul_view_load_url, hr]
    · rcases h with h1 | h2 | h3
      · exact absurd (Or.inl h1) hr
      · exact absurd (Or.inr h2) hr
      · simp [ul_view_load_url, hr, worker_do_load, h3]
  · intro e; simp [ul_view_fire_mouse, h]
  · intro e; simp [ul_view_fire_scroll, h]
  · intro e; simp [ul_view_fire_key, h]
  · intro s; simp [ul_view_eval_js, h]
  · intro n; simp [ul_view_get_message, h]
  · intro n; simp [ul_view_get_console_message, h]
  · simp [ul_view_get_pixels, h]
  · simp [ul_view_get_width, h]
  · simp [ul_view_get_height, h]
  · simp [ul_view_get_row_bytes, h]
  · simp [ul_view_is_ready, h]
  · intro dest n; simp [ul_view_copy_pixels_rgba, h]
  · intro st' id'
    by_cases hr : id' < 0 ∨ (MAX_VIEWS : Int) ≤ id'
    · simp [ul_destroy_view, hr]
    · by_cases hu : (st'.views id'.toNat).used = false
      · simp [ul_destroy_view, hr, worker_do_destroy_view, hu]
      · have hused : ((ul_destroy_view st' id').views id'.toNat).used = false := by
          simp [ul_destroy_view, hr, worker_do_destroy_view, hu, setView]
        set s1 := ul_destroy_view st' id' with hs1
        simp [ul_destroy_view, hr, worker_do_destroy_view, hused]

theorem drain_slot_spec (u : ViewSlot) (hu : u.used = true) (hl : u.view_live = true) :
    (drain_slot u).mouse_fired =
      u.mouse_fired ++ u.mouse_queue.map (clampMouse u.width u.height) ∧
    (drain_slot u).scroll_fired = u.scroll_fired ++ u.scroll_queue ∧
    (drain_slot u).key_fired =
      u.key_fired ++ u.key_queue.map (fun e => { e with type := mapKeyType e.type }) ∧
    (drain_slot u).js_fired = u.js_fired ++ u.js_queue ∧
    (drain_slot u).mouse_queue = [] ∧
    (drain_slot u).scroll_queue = [] ∧
    (drain_slot u).key_queue = [] ∧
    (drain_slot u).js_queue = [] := by
  simp [drain_slot, hu, hl]

theorem foldl_fire_mouse_queue (evs : List MouseQueueEntry) (v : ViewSlot) :
    (evs.foldl fire_mouse_slot v).mouse_queue =
      v.mouse_queue ++ evs.take (MOUSE_QUEUE_MAX - v.mouse_queue.length) := by
  induction evs generalizing v with
  | nil => simp
  | cons e t ih =>
    by_cases hfull : MOUSE_QUEUE_MAX ≤ v.mouse_queue.length
    · have h0 : MOUSE_QUEUE_MAX - v.mouse_queue.length = 0 := by omega
      rw [List.foldl_cons, show fire_mouse_slot v e = v from by simp [fire_mouse_slot, hfull],
          ih v, h0]
      simp
    · rw [List.foldl_cons,
          show fire_mouse_slot v e = { v with mouse_queue := v.mouse_queue ++ [e] } from by
            simp [fire_mouse_slot, hfull],
          ih]
      have hsucc : MOUSE_QUEUE_MAX - v.mouse_queue.length =
          (MOUSE_QUEUE_MAX - (v.mouse_queue.length + 1)) + 1 := by omega
      simp only [List.length_append, List.length_cons, List.length_nil]
      rw [hsucc, List.take_succ_cons, List.append_assoc]
      simp

theorem foldl_fire_mouse_preserves (evs : List MouseQueueEntry) (v : ViewSlot) :
    (evs.foldl fire_mouse_slot v).used = v.used ∧
    (evs.foldl fire_mouse_slot v).view_live = v.view_live ∧
    (evs.foldl fire_mouse_slot v).width = v.width ∧
    (evs.foldl fire_mouse_slot v).height = v.height ∧
    (evs.foldl fire_mouse_slot v).mouse_fired = v.mouse_fired := by
  induction evs generalizing v with
  | nil => simp
  | cons e t ih =>
    rw [List.foldl_cons]
    have hstep : (fire_mouse_slot v e).used = v.used ∧
        (fire_mouse_slot v e).view_live = v.view_live ∧
        (fire_mouse_slot v e).width = v.width ∧
        (fire_mouse_slot v e).height = v.height ∧
        (fire_mouse_slot v e).mouse_fired = v.mouse_fired := by
      unfold fire_mouse_slot; split_ifs <;> simp
    obtain ⟨h1, h2, h3, h4, h5⟩ := ih (fire_mouse_slot v e)
    rw [h1, h2, h3, h4, h5, hstep.1, hstep.2.1, hstep.2.2.1, hstep.2.2.2.1, hstep.2.2.2.2]
    exact ⟨rfl, rfl, rfl, rfl, rfl⟩

/-- C8 witness: the no-op behavior at the concrete bad handle `-1` on the
initial bridge state. -/
theorem claim_C8_handle_safety_witness :
    badHandle emptyBridge (-1) ∧
    ul_destroy_view emptyBridge (-1) = emptyBridge ∧
    ul_view_is_ready emptyBridge (-1) = 0 ∧
    ul_view_get_pixels emptyBridge (-1) = none := by
  have h : badHandle emptyBridge (-1) := Or.inl (by norm_num)
  obtain ⟨h1, -, -, -, -, -, -, -, -, hpix, -, -, -, hready, -, -⟩ :=
    claim_C8_handle_safety emptyBridge (-1) h
  exact ⟨h, h1, hready, hpix⟩

/-- C4: pushes onto a full input queue (mouse, scroll, key,
pending-script) leave the whole bridge state unchanged (newest event
dropped, count never exceeding capacity); the per-tick drain dispatches
the stored events in FIFO enqueue order and resets each queue; and
pushing more mouse events than capacity starting from an empty queue
keeps exactly the oldest `MOUSE_QUEUE_MAX` events, so the drain then
dispatches those and the overflow is dropped. -/
theorem claim_C4_queue_overflow_fifo :
    (∀ (st : BridgeState) (id : Int) (e : MouseQueueEntry),
      MOUSE_QUEUE_MAX ≤ (st.views id.toNat).mouse_queue.length →
      ul_view_fire_mouse st id e = st) ∧
    (∀ (st : BridgeState) (id : Int) (e : ScrollQueueEntry),
      SCROLL_QUEUE_MAX ≤ (st.views id.toNat).scroll_queue.length →
      ul_view_fire_scroll st id e = st) ∧
    (∀ (st : BridgeState) (id : Int) (e : KeyQueueEntry),
      KEY_QUEUE_MAX ≤ (st.views id.toNat).key_queue.length →
      ul_view_fire_key st id e = st) ∧
    (∀ (st : BridgeState) (id : Int) (s : String),
      JS_QUEUE_MAX ≤ (st.views id.toNat).js_queue.length →
      ul_view_eval_js st id s = st) ∧
    (∀ (st : BridgeState) (i : Nat), i < MAX_VIEWS →
      (st.views i).used = true → (st.views i).view_live = true →
      ((worker_do_tick st).views i).mouse_fired =
        (st.views i).mouse_fired ++
          (st.views i).mouse_queue.map (clampMouse (st.views i).width (st.views i).height) ∧
      ((worker_do_tick st).views i).scroll_fired =
        (st.views i).scroll_fired ++ (st.views i).scroll_queue ∧
      ((worker_do_tick st).views i).key_fired =
        (st.views i).key_fired ++
          (st.views i).key_queue.map (fun e => { e with type := mapKeyType e.type }) ∧
      ((worker_do_tick st).views i).js_fired =
        (st.views i).js_fired ++ (st.views i).js_queue ∧
      ((worker_do_tick st).views i).mouse_queue = [] ∧
      ((worker_do_tick st).views i).scroll_queue = [] ∧
      ((worker_do_tick st).views i).key_queue = [] ∧
      ((worker_do_tick st).views i).js_queue = []) ∧
    (∀ (v : ViewSlot) (evs : List MouseQueueEntry), v.mouse_queue = [] →
      (evs.foldl fire_mouse_slot v).mouse_queue = evs.take MOUSE_QUEUE_MAX) ∧
    (∀ (v : ViewSlot) (evs : List MouseQueueEntry),
      v.mouse_queue = [] → v.mouse_fired = [] → v.used = true → v.view_live = true →
      (drain_slot (evs.foldl fire_mouse_slot v)).mouse_fired =
        (evs.take MOUSE_QUEUE_MAX).map (clampMouse v.width v.height)) := by
  have hqueue : ∀ (v : ViewSlot) (evs : List MouseQueueEntry), v.mouse_queue = [] →
      (evs.foldl fire_mouse_slot v).mouse_queue = evs.take MOUSE_QUEUE_MAX := by
    intro v evs h
    rw [foldl_fire_mouse_queue, h]
    simp
  refine ⟨?_, ?_, ?_, ?_, ?_, hqueue, ?_⟩
  · intro st id e hfull
    by_cases hbad : badHandle st id
    · simp [ul_view_fire_mouse, hbad]
    · rw [ul_view_fire_mouse, if_neg hbad, show fire_mouse_slot (st.views id.toNat) e =
        st.views id.toNat from by simp [fire_mouse_slot, hfull], setView_self]
  · intro st id e hfull
    by_cases hbad : badHandle st id
    · simp [ul_view_fire_scroll, hbad]
    · rw [ul_view_fire_scroll, if_neg hbad, show fire_scroll_slot (st.views id.toNat) e =
        st.views id.toNat from by simp [fire_scroll_slot, hfull], setView_self]
  · intro st id e hfull
    by_cases hbad : badHandle st id
    · simp [ul_view_fire_key, hbad]
    · rw [ul_view_fire_key, if_neg hbad, show fire_key_slot (st.views id.toNat) e =
        st.views id.toNat from by simp [fire_key_slot, hfull], setView_self]
  · intro st id s hfull
    by_cases hbad : badHandle st id
    · simp [ul_view_eval_js, hbad]
    · rw [ul_view_eval_js, if_neg hbad, show eval_js_slot (st.views id.toNat) s =
        st.views id.toNat from by simp [eval_js_slot, hfull], setView_self]
  · intro st i hi hu hl
    rw [worker_do_tick_views st i hi]
    obtain ⟨pu, pl, pw, ph, pm, ps, pk, pj, pfm, pfs, pfk, pfj⟩ :=
      tick_phase_slot_preserves (st.views i)
    have hu' : (tick_phase_slot (st.views i)).used = true := by rw [pu]; exact hu
    have hl' : (tick_phase_slot (st.views i)).view_live = true := by rw [pl]; exact hl
    obtain ⟨d1, d2, d3, d4, d5, d6, d7, d8⟩ := drain_slot_spec _ hu' hl'
    unfold tickSlot
    rw [d1, d2, d3, d4, pfm, pm, pw, ph, pfs, ps, pfk, pk, pfj, pj]
    exact ⟨rfl, rfl, rfl, rfl, d5, d6, d7, d8⟩
  · intro v evs hq hf hu hl
    obtain ⟨fu, fl, fw, fh, ff⟩ := foldl_fire_mouse_preserves evs v
    have hu' : (evs.foldl fire_mouse_slot v).used = true := by rw [fu]; exact hu
    have hl' : (evs.foldl fire_mouse_slot v).view_live = true := by rw [fl]; exact hl
    obtain ⟨d1, -, -, -, -, -, -, -⟩ := drain_slot_spec _ hu' hl'
    rw [d1, ff, hf, hqueue v evs hq, fw, fh]
    simp

/-- C4 witness: on the concrete state whose slot 0 has all queues at
capacity, a further mouse push leaves the state unchanged, and draining a
65-element burst from an empty queue dispatches exactly the first 64. -/
theorem claim_C4_queue_overflow_fifo_witness :
    MOUSE_QUEUE_MAX ≤ ((fullBridge.views (Int.toNat 0)).mouse_queue.length) ∧
    ul_view_fire_mouse fullBridge 0 ⟨0, 5, 5, 0⟩ = fullBridge ∧
    readySlot.mouse_queue = [] ∧
    ((List.replicate 65 (⟨0, 7, 9, 0⟩ : MouseQueueEntry)).foldl
        fire_mouse_slot readySlot).mouse_queue =
      (List.replicate 65 (⟨0, 7, 9, 0⟩ : MouseQueueEntry)).take MOUSE_QUEUE_MAX := by
  have h1 : MOUSE_QUEUE_MAX ≤ ((fullBridge.views (Int.toNat 0)).mouse_queue.length) := by
    simp [fullBridge, fullSlot]
  have h2 : readySlot.mouse_queue = [] := rfl
  exact ⟨h1, claim_C4_queue_overflow_fifo.1 fullBridge 0 ⟨0, 5, 5, 0⟩ h1, h2,
    claim_C4_queue_overflow_fifo.2.2.2.2.2.1 readySlot _ h2⟩

theorem console_push_full_fields (v : ViewSlot) (msg : String)
    (hcount : v.console_count = CONSOLE_MSG_MAX)
    (ht : v.console_head = v.console_tail) :
    (console_push_slot v msg).console_count = CONSOLE_MSG_MAX ∧
    (console_push_slot v msg).console_tail = (v.console_tail + 1) % CONSOLE_MSG_MAX ∧
    (∀ i, (console_push_slot v msg).console_msgs i =
      if i = v.console_tail then msg.take (CONSOLE_MSG_BUFLEN - 1)
      else v.console_msgs i) := by
  have hcond : CONSOLE_MSG_MAX ≤ v.console_count := le_of_eq hcount.symm
  refine ⟨?_, ?_, ?_⟩
  · simp only [console_push_slot]
    rw [if_pos hcond]
    show v.console_count - 1 + 1 = CONSOLE_MSG_MAX
    rw [hcount]
    decide
  · simp only [console_push_slot]
    rw [if_pos hcond]
  · intro i
    simp only [console_push_slot]
    rw [if_pos hcond]
    show (if i = v.console_head then msg.take (CONSOLE_MSG_BUFLEN - 1)
          else v.console_msgs i) = _
    rw [ht]

theorem consoleList_push_full (v : ViewSlot) (msg : String)
    (hcount : v.console_count = CONSOLE_MSG_MAX)
    (hhead : v.console_head = (v.console_tail + v.console_count) % CONSOLE_MSG_MAX)
    (htail : v.console_tail < CONSOLE_MSG_MAX) :
    consoleList (console_push_slot v msg) =
      (consoleList v).drop 1 ++ [msg.take (CONSOLE_MSG_BUFLEN - 1)] := by
  have ht : v.console_head = v.console_tail := by
    rw [hhead, hcount]
    simp only [CONSOLE_MSG_MAX] at htail ⊢
    omega
  obtain ⟨hc', ht', hm'⟩ := console_push_full_fields v msg hcount ht
  set t := v.console_tail with htdef
  set stored := msg.take (CONSOLE_MSG_BUFLEN - 1) with hstored
  have hLHS : consoleList (console_push_slot v msg) =
      (List.range CONSOLE_MSG_MAX).map
        (fun k => (console_push_slot v msg).console_msgs ((t + 1 + k) % CONSOLE_MSG_MAX)) := by
    unfold consoleList
    rw [hc', ht']
    refine List.map_congr_left ?_
    intro k _
    exact congrArg _ (Nat.mod_add_mod _ _ _)
  have hRHS : consoleList v =
      (List.range CONSOLE_MSG_MAX).map (fun k => v.console_msgs ((t + k) % CONSOLE_MSG_MAX)) := by
    unfold consoleList
    rw [hcount]
  rw [hLHS, hRHS]
  have htn : t < 64 := by simpa [CONSOLE_MSG_MAX] using htail
  simp only [CONSOLE_MSG_MAX]
  apply List.ext_getElem
  · simp
  · intro i h1 h2
    simp only [List.getElem_map, List.getElem_range]
    rw [hm']
    by_cases hi : i < 63
    · have hne : ¬((t + 1 + i) % 64 = t) := by omega
      rw [if_neg hne]
      have hil : i < (((List.range 64).map
          (fun k => v.console_msgs ((t + k) % 64))).drop 1).length := by
        simpa using hi
      rw [List.getElem_append_left hil, List.getElem_drop, List.getElem_map,
          List.getElem_range]
      exact congrArg _ (by omega)
    · have hi63 : i = 63 := by
        simp only [List.length_map, List.length_range] at h1
        omega
      subst hi63
      have heq : (t + 1 + 63) % 64 = t := by omega
      rw [if_pos heq]
      have hge : (((List.range 64).map
          (fun k => v.console_msgs ((t + k) % 64))).drop 1).length ≤ 63 := by
        simp
      rw [List.getElem_append_right hge]
      simp

/-- C5: the two overflow policies are opposite: a console message pushed
into a full console ring evicts the oldest stored message and stores the
new one (count stays at capacity, live window shifts by one, new message
last); a `__goSend` native message arriving at a full message queue is
dropped and the slot is completely unchanged. -/
theorem claim_C5_overflow_policies :
    (∀ (v : ViewSlot) (msg : String),
      v.console_count = CONSOLE_MSG_MAX →
      v.console_head = (v.console_tail + v.console_count) % CONSOLE_MSG_MAX →
      v.console_tail < CONSOLE_MSG_MAX →
      (console_push_slot v msg).console_count = CONSOLE_MSG_MAX ∧
      consoleList (console_push_slot v msg) =
        (consoleList v).drop 1 ++ [msg.take (CONSOLE_MSG_BUFLEN - 1)]) ∧
    (∀ (v : ViewSlot) (m : List Nat) (maxLen : Nat),
      MSG_QUEUE_MAX ≤ v.msg_count → goSend_push_slot v m maxLen = v) := by
  constructor
  · intro v msg hcount hhead htail
    have ht : v.console_head = v.console_tail := by
      rw [hhead, hcount]
      simp only [CONSOLE_MSG_MAX] at htail ⊢
      omega
    exact ⟨(console_push_full_fields v msg hcount ht).1,
      consoleList_push_full v msg hcount hhead htail⟩
  · intro v m maxLen hfull
    unfold goSend_push_slot
    rw [if_neg]
    rintro ⟨hlt, -⟩
    omega

/-- C5 witness: on the concrete slot with both buffers full, the console
push keeps the count at 64 and appends the new message after dropping the
oldest, while the message push leaves the slot unchanged. -/
theorem claim_C5_overflow_policies_witness :
    fullSlot.console_count = CONSOLE_MSG_MAX ∧
    fullSlot.console_head = (fullSlot.console_tail + fullSlot.console_count) % CONSOLE_MSG_MAX ∧
    fullSlot.console_tail < CONSOLE_MSG_MAX ∧
    MSG_QUEUE_MAX ≤ fullSlot.msg_count ∧
    ((console_push_slot fullSlot "new").console_count = CONSOLE_MSG_MAX ∧
      consoleList (console_push_slot fullSlot "new") =
        (consoleList fullSlot).drop 1 ++ [("new" : String).take (CONSOLE_MSG_BUFLEN - 1)]) ∧
    goSend_push_slot fullSlot [9] 2 = fullSlot :=
  ⟨rfl, rfl, by decide, by decide,
    claim_C5_overflow_policies.1 fullSlot "new" rfl rfl (by decide),
    claim_C5_overflow_policies.2 fullSlot [9] 2 (by decide)⟩

theorem convByte_spec (surf : Surface) (w x y : Nat) (hx : x < w) :
    convByte surf w ((y * w + x) * 4) = surf.pixels (y * surf.rowBytes + x * 4 + 2) ∧
    convByte surf w ((y * w + x) * 4 + 1) = surf.pixels (y * surf.rowBytes + x * 4 + 1) ∧
    convByte surf w ((y * w + x) * 4 + 2) = surf.pixels (y * surf.rowBytes + x * 4) ∧
    convByte surf w ((y * w + x) * 4 + 3) = surf.pixels (y * surf.rowBytes + x * 4 + 3) := by
  have hw : 0 < w := lt_of_le_of_lt (Nat.zero_le x) hx
  have hrow : (y * w + x) / w = y := by
    rw [Nat.add_comm, Nat.mul_comm, Nat.add_mul_div_left _ _ hw, Nat.div_eq_of_lt hx,
        Nat.zero_add]
  have hcol : (y * w + x) % w = x := by
    rw [Nat.add_comm, Nat.mul_comm, Nat.add_mul_mod_self_left, Nat.mod_eq_of_lt hx]
  refine ⟨?_, ?_, ?_, ?_⟩
  · unfold convByte
    rw [show (y * w + x) * 4 % 4 = 0 from by omega,
        show (y * w + x) * 4 / 4 = y * w + x from by omega, hrow, hcol]
  · unfold convByte
    rw [show ((y * w + x) * 4 + 1) % 4 = 1 from by omega,
        show ((y * w + x) * 4 + 1) / 4 = y * w + x from by omega, hrow, hcol]
  · unfold convByte
    rw [show ((y * w + x) * 4 + 2) % 4 = 2 from by omega,
        show ((y * w + x) * 4 + 2) / 4 = y * w + x from by omega, hrow, hcol]
  · unfold convByte
    rw [show ((y * w + x) * 4 + 3) % 4 = 3 from by omega,
        show ((y * w + x) * 4 + 3) / 4 = y * w + x from by omega, hrow, hcol]

/-- C2: on a valid view with a non-empty dirty region and a destination
of at least `width*height*4` bytes, `ul_view_copy_pixels_rgba` returns 1,
writes destination pixel `(x,y)` bytes `(R,G,B,A)` from source bytes
`(B,G,R,A)` at `y*rowBytes + x*4` (honoring a row stride that may exceed
`width*4`), and clears the dirty region; with a destination smaller than
`width*height*4` it returns 0 and writes nothing. -/
theorem claim_C2_pixel_copy :
    (∀ (st : BridgeState) (id : Int) (dest : Nat → Nat) (dest_size : Int) (surf : Surface),
      ¬ badHandle st id →
      (st.views id.toNat).surface = some surf →
      surf.dirty.left < surf.dirty.right →
      surf.dirty.top < surf.dirty.bottom →
      (st.views id.toNat).width * (st.views id.toNat).height * 4 ≤ dest_size →
      (ul_view_copy_pixels_rgba st id dest dest_size).1 = 1 ∧
      ((ul_view_copy_pixels_rgba st id dest dest_size).2.2.views id.toNat).surface =
        some { surf with dirty := ⟨0, 0, 0, 0⟩ } ∧
      (∀ x y : Nat, x < (st.views id.toNat).width.toNat →
        y < (st.views id.toNat).height.toNat →
        (ul_view_copy_pixels_rgba st id dest dest_size).2.1
            ((y * (st.views id.toNat).width.toNat + x) * 4) =
          surf.pixels (y * surf.rowBytes + x * 4 + 2) ∧
        (ul_view_copy_pixels_rgba st id dest dest_size).2.1
            ((y * (st.views id.toNat).width.toNat + x) * 4 + 1) =
          surf.pixels (y * surf.rowBytes + x * 4 + 1) ∧
        (ul_view_copy_pixels_rgba st id dest dest_size).2.1
            ((y * (st.views id.toNat).width.toNat + x) * 4 + 2) =
          surf.pixels (y * surf.rowBytes + x * 4) ∧
        (ul_view_copy_pixels_rgba st id dest dest_size).2.1
            ((y * (st.views id.toNat).width.toNat + x) * 4 + 3) =
          surf.pixels (y * surf.rowBytes + x * 4 + 3))) ∧
    (∀ (st : BridgeState) (id : Int) (dest : Nat → Nat) (dest_size : Int),
      dest_size < (st.views id.toNat).width * (st.views id.toNat).height * 4 →
      ul_view_copy_pixels_rgba st id dest dest_size = (0, dest, st)) := by
  constructor
  · intro st id dest dest_size surf hbad hsurf hd1 hd2 hsize
    have hde : ¬(surf.dirty.right ≤ surf.dirty.left ∨ surf.dirty.bottom ≤ surf.dirty.top) := by
      push_neg
      exact ⟨hd1, hd2⟩
    have hns : ¬(dest_size < (st.views id.toNat).width * (st.views id.toNat).height * 4) :=
      not_lt.mpr hsize
    have hres : ul_view_copy_pixels_rgba st id dest dest_size =
        (1,
         fun i : Nat =>
           if 0 < (st.views id.toNat).width ∧ 0 < (st.views id.toNat).height ∧
              (i : Int) < (st.views id.toNat).width * (st.views id.toNat).height * 4 then
             convByte surf (st.views id.toNat).width.toNat i
           else dest i,
         setView st id.toNat
           { st.views id.toNat with surface := some { surf with dirty := ⟨0, 0, 0, 0⟩ } }) := by
      unfold ul_view_copy_pixels_rgba
      rw [if_neg hbad]
      simp only [hsurf]
      rw [if_neg hde, if_neg hns]
    refine ⟨by rw [hres], by rw [hres]; simp, ?_⟩
    intro x y hx hy
    have hw : 0 < (st.views id.toNat).width := by
      rcases lt_or_le 0 (st.views id.toNat).width with h | h
      · exact h
      · rw [Int.toNat_of_nonpos h] at hx
        omega
    have hh : 0 < (st.views id.toNat).height := by
      rcases lt_or_le 0 (st.views id.toNat).height with h | h
      · exact h
      · rw [Int.toNat_of_nonpos h] at hy
        omega
    set wN := (st.views id.toNat).width.toNat with hwN
    set hN := (st.views id.toNat).height.toNat with hhN
    have hwI : ((wN : Int)) = (st.views id.toNat).width := Int.toNat_of_nonneg hw.le
    have hhI : ((hN : Int)) = (st.views id.toNat).height := Int.toNat_of_nonneg hh.le
    have hplt : y * wN + x < wN * hN := by
      calc y * wN + x < (y + 1) * wN := by
            rw [Nat.add_mul, Nat.one_mul]
            omega
        _ ≤ hN * wN := Nat.mul_le_mul_right wN (by omega)
        _ = wN * hN := Nat.mul_comm hN wN
    have hcast : ∀ k : Nat, k < 4 →
        (((y * wN + x) * 4 + k : Nat) : Int) <
          (st.views id.toNat).width * (st.views id.toNat).height * 4 := by
      intro k hk
      rw [← hwI, ← hhI]
      have : (y * wN + x) * 4 + k < wN * hN * 4 := by
        have := hplt
        omega
      exact_mod_cast this
    obtain ⟨c0, c1, c2, c3⟩ := convByte_spec surf wN x y hx
    rw [hres]
    refine ⟨?_, ?_, ?_, ?_⟩
    · show (if _ ∧ _ ∧ _ then _ else _) = _
      rw [if_pos ⟨hw, hh, by simpa using hcast 0 (by omega)⟩]
      exact c0
    · show (if _ ∧ _ ∧ _ then _ else _) = _
      rw [if_pos ⟨hw, hh, hcast 1 (by omega)⟩]
      exact c1
    · show (if _ ∧ _ ∧ _ then _ else _) = _
      rw [if_pos ⟨hw, hh, hcast 2 (by omega)⟩]
      exact c2
    · show (if _ ∧ _ ∧ _ then _ else _) = _
      rw [if_pos ⟨hw, hh, hcast 3 (by omega)⟩]
      exact c3
  · intro st id dest dest_size hsize
    unfold ul_view_copy_pixels_rgba
    by_cases hbad : badHandle st id
    · rw [if_pos hbad]
    · rw [if_neg hbad]
      rcases hs : (st.views id.toNat).surface with - | surf
      · rfl
      · by_cases hde : surf.dirty.right ≤ surf.dirty.left ∨ surf.dirty.bottom ≤ surf.dirty.top
        · simp [hde]
        · simp [hde, hsize]

/-- C2 witness: on the concrete 2×1 view with a 12-byte row stride, the
copy returns 1, pixel (1,0)'s red destination byte comes from source byte
`0*12 + 1*4 + 2`, the dirty region is cleared, and an 7-byte destination
is rejected without a write. -/
theorem claim_C2_pixel_copy_witness :
    ¬ badHandle readyBridge 0 ∧
    (readyBridge.views (Int.toNat 0)).surface = some testSurf ∧
    testSurf.dirty.left < testSurf.dirty.right ∧
    testSurf.dirty.top < testSurf.dirty.bottom ∧
    (readyBridge.views (Int.toNat 0)).width * (readyBridge.views (Int.toNat 0)).height * 4 ≤ 8 ∧
    (ul_view_copy_pixels_rgba readyBridge 0 (fun _ => 0) 8).1 = 1 ∧
    ((ul_view_copy_pixels_rgba readyBridge 0 (fun _ => 0) 8).2.2.views (Int.toNat 0)).surface =
      some { testSurf with dirty := ⟨0, 0, 0, 0⟩ } ∧
    (ul_view_copy_pixels_rgba readyBridge 0 (fun _ => 0) 8).2.1
        ((0 * (readyBridge.views (Int.toNat 0)).width.toNat + 1) * 4) =
      testSurf.pixels (0 * testSurf.rowBytes + 1 * 4 + 2) ∧
    (7 : Int) < (readyBridge.views (Int.toNat 0)).width * (readyBridge.views (Int.toNat 0)).height * 4 ∧
    ul_view_copy_pixels_rgba readyBridge 0 (fun _ => 0) 7 = (0, (fun _ => 0), readyBridge) := by
  have h1 : ¬ badHandle readyBridge 0 := by decide
  have h2 : (readyBridge.views (Int.toNat 0)).surface = some testSurf := rfl
  have h3 : testSurf.dirty.left < testSurf.dirty.right := by decide
  have h4 : testSurf.dirty.top < testSurf.dirty.bottom := by decide
  have h5 : (readyBridge.views (Int.toNat 0)).width *
      (readyBridge.views (Int.toNat 0)).height * 4 ≤ (8 : Int) := by decide
  have h9 : (7 : Int) < (readyBridge.views (Int.toNat 0)).width *
      (readyBridge.views (Int.toNat 0)).height * 4 := by decide
  obtain ⟨hret, hclear, hpix⟩ :=
    claim_C2_pixel_copy.1 readyBridge 0 (fun _ => 0) 8 testSurf h1 h2 h3 h4 h5
  exact ⟨h1, h2, h3, h4, h5, hret, hclear,
    (hpix 1 0 (by decide) (by decide)).1, h9,
    claim_C2_pixel_copy.2 readyBridge 0 (fun _ => 0) 7 h9⟩

/-- C3: an empty dirty region (`left ≥ right` or `top ≥ bottom`) makes
the pixel copy return 0 without touching the destination or the state;
consequently a second copy right after a successful one reports "no
update" because the first copy cleared the dirty region. -/
theorem claim_C3_dirty_gate :
    (∀ (st : BridgeState) (id : Int) (dest : Nat → Nat) (n : Int) (surf : Surface),
      (st.views id.toNat).surface = some surf →
      (surf.dirty.right ≤ surf.dirty.left ∨ surf.dirty.bottom ≤ surf.dirty.top) →
      ul_view_copy_pixels_rgba st id dest n = (0, dest, st)) ∧
    (∀ (st : BridgeState) (id : Int) (dest : Nat → Nat) (n : Int)
      (dest2 : Nat → Nat) (n2 : Int),
      (ul_view_copy_pixels_rgba st id dest n).1 = 1 →
      ul_view_copy_pixels_rgba (ul_view_copy_pixels_rgba st id dest n).2.2 id dest2 n2 =
        (0, dest2, (ul_view_copy_pixels_rgba st id dest n).2.2)) := by
  have hempty : ∀ (st : BridgeState) (id : Int) (dest : Nat → Nat) (n : Int) (surf : Surface),
      (st.views id.toNat).surface = some surf →
      (surf.dirty.right ≤ surf.dirty.left ∨ surf.dirty.bottom ≤ surf.dirty.top) →
      ul_view_copy_pixels_rgba st id dest n = (0, dest, st) := by
    intro st id dest n surf hs hde
    unfold ul_view_copy_pixels_rgba
    by_cases hbad : badHandle st id
    · rw [if_pos hbad]
    · rw [if_neg hbad]
      simp only [hs]
      rw [if_pos hde]
  refine ⟨hempty, ?_⟩
  intro st id dest n dest2 n2 hret
  by_cases hbad : badHandle st id
  · rw [show ul_view_copy_pixels_rgba st id dest n = (0, dest, st) from by
        unfold ul_view_copy_pixels_rgba; rw [if_pos hbad]] at hret
    simp at hret
  · rcases hs : (st.views id.toNat).surface with - | surf
    · rw [show ul_view_copy_pixels_rgba st id dest n = (0, dest, st) from by
          unfold ul_view_copy_pixels_rgba; rw [if_neg hbad]; simp only [hs]] at hret
      simp at hret
    · by_cases hde : surf.dirty.right ≤ surf.dirty.left ∨ surf.dirty.bottom ≤ surf.dirty.top
      · rw [hempty st id dest n surf hs hde] at hret
        simp at hret
      · by_cases hns : n < (st.views id.toNat).width * (st.views id.toNat).height * 4
        · rw [show ul_view_copy_pixels_rgba st id dest n = (0, dest, st) from by
              unfold ul_view_copy_pixels_rgba
              rw [if_neg hbad]; simp only [hs]; rw [if_neg hde, if_pos hns]] at hret
          simp at hret
        · have hres : (ul_view_copy_pixels_rgba st id dest n).2.2 =
              setView st id.toNat
                { st.views id.toNat with
                  surface := some { surf with dirty := ⟨0, 0, 0, 0⟩ } } := by
            unfold ul_view_copy_pixels_rgba
            rw [if_neg hbad]; simp only [hs]; rw [if_neg hde, if_neg hns]
          rw [hres]
          apply hempty
          · rw [setView_views_same]
          · exact Or.inl (le_refl 0)

/-- C3 witness: on the concrete ready view, the first copy succeeds and
the immediately following copy reports "no update" and leaves the second
destination untouched. -/
theorem claim_C3_dirty_gate_witness :
    (ul_view_copy_pixels_rgba readyBridge 0 (fun _ => 0) 8).1 = 1 ∧
    ul_view_copy_pixels_rgba
        (ul_view_copy_pixels_rgba readyBridge 0 (fun _ => 0) 8).2.2 0 (fun _ => 1) 8 =
      (0, (fun _ => 1), (ul_view_copy_pixels_rgba readyBridge 0 (fun _ => 0) 8).2.2) := by
  have h1 : (ul_view_copy_pixels_rgba readyBridge 0 (fun _ => 0) 8).1 = 1 := rfl
  exact ⟨h1, claim_C3_dirty_gate.2 readyBridge 0 (fun _ => 0) 8 (fun _ => 1) 8 h1⟩

theorem is_ready_zero_of_phase (st : BridgeState) (id : Int)
    (h : (st.views id.toNat).load_phase ≠ 0) : ul_view_is_ready st id = 0 := by
  unfold ul_view_is_ready
  by_cases hbad : badHandle st id
  · rw [if_pos hbad]
  · rw [if_neg hbad, if_neg h]

theorem is_ready_one (st : BridgeState) (id : Int) (hbad : ¬ badHandle st id)
    (h : (st.views id.toNat).load_phase = 0) : ul_view_is_ready st id = 1 := by
  unfold ul_view_is_ready
  rw [if_neg hbad, if_pos h]

theorem create_async_views (st : BridgeState) (w h : Int) (url : String)
    (surf : Surface) (vid : Nat) (hfree : firstFree st = some vid) :
    (ul_create_view_async st w h url surf).1 = (vid : Int) ∧
    (ul_create_view_async st w h url surf).2.views vid =
      asyncInitSlot (st.views vid) w h url surf := by
  unfold ul_create_view_async worker_do_create_and_load
  rw [hfree]
  exact ⟨rfl, by simp [setView, asyncInitSlot, initSlot]⟩

set_option maxHeartbeats 1000000

/-- C1: after `ul_create_view_async` the view is in `Priming`
(`load_phase = 1`); the second tick submits and frees the pending
content and enters `ContentPending` with the counter reset; the fifth
tick installs the JS bindings and reaches `Ready`; the readiness query is
0 before that and 1 from then on, and in general `ul_view_is_ready`
returns 1 exactly when the handle is in range, the slot used, and
`load_phase = 0`. -/
theorem claim_C1_async_load_phases (st : BridgeState) (w h : Int) (url : String)
    (surf : Surface) (vid : Nat) (hfree : firstFree st = some vid) :
    C1Concl st w h url surf vid ∧
    (∀ (st' : BridgeState) (id' : Int),
      ul_view_is_ready st' id' = 1 ↔
        (0 ≤ id' ∧ id' < (MAX_VIEWS : Int) ∧ (st'.views id'.toNat).used = true ∧
          (st'.views id'.toNat).load_phase = 0)) := by
  have hlt : vid < MAX_VIEWS := firstFree_lt st vid hfree
  obtain ⟨hc1, hc2⟩ := create_async_views st w h url surf vid hfree
  set s0 : ViewSlot := asyncInitSlot (st.views vid) w h url surf with hs0
  have e1 : tickSlot s0 = { s0 with phase_counter := 1 } := rfl
  have e2 : tickSlot { s0 with phase_counter := 1 } =
      { s0 with load_phase := 2, phase_counter := 0, pending_load_str := none,
                loads := [(url, true)] } := rfl
  have e3 : tickSlot ({ s0 with load_phase := 2, phase_counter := 0,
                                pending_load_str := none, loads := [(url, true)] }) =
      { s0 with load_phase := 2, phase_counter := 1, pending_load_str := none,
                loads := [(url, true)] } := rfl
  have e4 : tickSlot ({ s0 with load_phase := 2, phase_counter := 1,
                                pending_load_str := none, loads := [(url, true)] }) =
      { s0 with load_phase := 2, phase_counter := 2, pending_load_str := none,
                loads := [(url, true)] } := rfl
  have e5 : tickSlot ({ s0 with load_phase := 2, phase_counter := 2,
                                pending_load_str := none, loads := [(url, true)] }) =
      { s0 with load_phase := 0, phase_counter := 3, pending_load_str := none,
                loads := [(url, true)], js_bound := true } := rfl
  have q1 : tickSlot^[1] s0 = { s0 with phase_counter := 1 } := by
    rw [show (1 : Nat) = 0 + 1 from rfl, Function.iterate_succ_apply,
        Function.iterate_zero_apply, e1]
  have q2 : tickSlot^[2] s0 =
      { s0 with load_phase := 2, phase_counter := 0, pending_load_str := none,
                loads := [(url, true)] } := by
    rw [show (2 : Nat) = 1 + 1 from rfl, Function.iterate_succ_apply', q1, e2]
  have q3 : tickSlot^[3] s0 =
      { s0 with load_phase := 2, phase_counter := 1, pending_load_str := none,
                loads := [(url, true)] } := by
    rw [show (3 : Nat) = 2 + 1 from rfl, Function.iterate_succ_apply', q2, e3]
  have q4 : tickSlot^[4] s0 =
      { s0 with load_phase := 2, phase_counter := 2, pending_load_str := none,
                loads := [(url, true)] } := by
    rw [show (4 : Nat) = 3 + 1 from rfl, Function.iterate_succ_apply', q3, e4]
  have q5 : tickSlot^[5] s0 =
      { s0 with load_phase := 0, phase_counter := 3, pending_load_str := none,
                loads := [(url, true)], js_bound := true } := by
    rw [show (5 : Nat) = 4 + 1 from rfl, Function.iterate_succ_apply', q4, e5]
  have hslot : ∀ n, asyncSlotAt st w h url surf vid n = tickSlot^[n] s0 := by
    intro n
    unfold asyncSlotAt
    rw [worker_do_tick_iter_views _ vid hlt n, hc2]
  have htn : ((vid : Int)).toNat = vid := Int.toNat_ofNat vid
  have hphase : ∀ n, ((worker_do_tick^[n] (ul_create_view_async st w h url surf).2).views
      ((vid : Int)).toNat).load_phase = (tickSlot^[n] s0).load_phase := by
    intro n
    rw [htn, ← hslot n]
    rfl
  constructor
  · refine ⟨hc1, ?_, ?_, ?_, ?_, ?_, ?_, ?_, ?_, ?_, ?_, ?_, ?_, ?_, ?_, ?_, ?_⟩
    · rw [hslot 0, Function.iterate_zero_apply]
      rfl
    · rw [hslot 0, Function.iterate_zero_apply]
      rfl
    · rw [hslot 0, Function.iterate_zero_apply]
      rfl
    · rw [hslot 0, Function.iterate_zero_apply]
      rfl
    · rw [hslot 1, q1]
      rfl
    · rw [hslot 1, q1]
    · rw [hslot 2, q2]
    · rw [hslot 2, q2]
    · rw [hslot 2, q2]
    · rw [hslot 2, q2]
    · rw [hslot 3, q3]
    · rw [hslot 4, q4]
    · rw [hslot 5, q5]
    · rw [hslot 5, q5]
    · intro n hn
      apply is_ready_zero_of_phase
      rw [hphase n]
      interval_cases n
      · rw [Function.iterate_zero_apply]
        exact (by decide : (1 : Nat) ≠ 0)
      · rw [q1]
        exact (by decide : (1 : Nat) ≠ 0)
      · rw [q2]
        exact (by decide : (2 : Nat) ≠ 0)
      · rw [q3]
        exact (by decide : (2 : Nat) ≠ 0)
      · rw [q4]
        exact (by decide : (2 : Nat) ≠ 0)
    · intro n hn
      obtain ⟨m, rfl⟩ : ∃ m, n = 5 + m := ⟨n - 5, by omega⟩
      have hready5 : (tickSlot^[5] s0).used = true ∧ (tickSlot^[5] s0).load_phase = 0 := by
        rw [q5]
        exact ⟨rfl, rfl⟩
      have hpm := tickSlot_iter_preserves_ready _ m hready5.1 hready5.2
      have hiter : tickSlot^[5 + m] s0 = tickSlot^[m] (tickSlot^[5] s0) := by
        rw [Nat.add_comm, Function.iterate_add_apply]
      have hused : ((worker_do_tick^[5 + m] (ul_create_view_async st w h url surf).2).views
          ((vid : Int)).toNat).used = true := by
        rw [htn, worker_do_tick_iter_views _ vid hlt, hc2, hiter]
        exact hpm.1
      apply is_ready_one
      · unfold badHandle
        push_neg
        refine ⟨by exact_mod_cast Nat.zero_le vid, by exact_mod_cast hlt, ?_⟩
        rw [hused]
        simp
      · rw [hphase (5 + m), hiter]
        exact hpm.2
  · intro st' id'
    unfold ul_view_is_ready badHandle
    constructor
    · intro hr
      split_ifs at hr with hb hp
      · exact absurd hr (by decide)
      · push_neg at hb
        exact ⟨hb.1, hb.2.1, by simpa using hb.2.2, hp⟩
      · exact absurd hr (by decide)
    · rintro ⟨h1, h2, h3, h4⟩
      rw [if_neg, if_pos h4]
      push_neg
      exact ⟨h1, h2, by simp [h3]⟩

/-- C1 witness: the phase schedule on the concrete initial state, slot 0,
a 320×240 view loading `file:///index.html`. -/
theorem claim_C1_async_load_phases_witness :
    firstFree emptyBridge = some 0 ∧
    C1Concl emptyBridge 320 240 "file:///index.html" testSurf 0 :=
  ⟨rfl,
    (claim_C1_async_load_phases emptyBridge 320 240 "file:///index.html" testSurf 0 rfl).1⟩

/-- C10: a stored native message may carry up to `MSG_QUEUE_BUFLEN - 1`
(= 8191) bytes, but `ul_view_get_message` copies at most `buf_size - 1`
bytes and the Go-side `pollMessage` always passes a 2048-byte buffer, so
any message longer than 2047 bytes is delivered as its silently
truncated 2047-byte prefix (reported as a success, not an error). -/
theorem claim_C10_message_truncation :
    (∀ (st : BridgeState) (id : Int),
      ¬ badHandle st id →
      0 < (st.views id.toNat).msg_count →
      (st.views id.toNat).msg_lens (st.views id.toNat).msg_tail =
        ((st.views id.toNat).msg_queue (st.views id.toNat).msg_tail).length →
      2047 < ((st.views id.toNat).msg_queue (st.views id.toNat).msg_tail).length →
      (pollMessage st id).1 =
        some (((st.views id.toNat).msg_queue (st.views id.toNat).msg_tail).take 2047) ∧
      ((st.views id.toNat).msg_queue (st.views id.toNat).msg_tail).take 2047 ≠
        (st.views id.toNat).msg_queue (st.views id.toNat).msg_tail) ∧
    (∀ (v : ViewSlot) (m : List Nat) (maxLen : Nat),
      v.msg_count < MSG_QUEUE_MAX → maxLen < MSG_QUEUE_BUFLEN →
      (goSend_push_slot v m maxLen).msg_queue v.msg_head = m.take (MSG_QUEUE_BUFLEN - 1) ∧
      (goSend_push_slot v m maxLen).msg_lens v.msg_head = min m.length (MSG_QUEUE_BUFLEN - 1) ∧
      (goSend_push_slot v m maxLen).msg_count = v.msg_count + 1) := by
  constructor
  · intro st id hbad hcnt hlen hlong
    have hguard : ¬(badHandle st id ∨ (2048 : Int) ≤ 0) := by
      push_neg
      exact ⟨hbad, by norm_num⟩
    have hne : ¬((st.views id.toNat).msg_count = 0) := by omega
    have hcl : min ((st.views id.toNat).msg_lens (st.views id.toNat).msg_tail)
        ((2048 : Int).toNat - 1) = 2047 := by
      rw [hlen, show ((2048 : Int).toNat - 1) = 2047 from by decide]
      omega
    constructor
    · have hmsg : ul_view_get_message st id 2048 =
          ((2047 : Int),
           ((st.views id.toNat).msg_queue (st.views id.toNat).msg_tail).take 2047,
           setView st id.toNat
             { st.views id.toNat with
               msg_tail := ((st.views id.toNat).msg_tail + 1) % MSG_QUEUE_MAX
               msg_count := (st.views id.toNat).msg_count - 1 }) := by
        unfold ul_view_get_message
        rw [if_neg hguard, if_neg hne, hcl]
        rfl
      unfold pollMessage
      rw [hmsg]
      norm_num
    · intro heq
      have hl := congrArg List.length heq
      rw [List.length_take] at hl
      omega
  · intro v m maxLen h1 h2
    unfold goSend_push_slot
    rw [if_pos ⟨h1, h2⟩]
    refine ⟨by simp, ?_, rfl⟩
    simp [List.length_take, Nat.min_comm]

/-- C10 witness: on the concrete state whose front message is 4000 bytes
of `65`, polling delivers exactly the 2047-byte prefix and flags success,
and a push stores a short message intact with its exact length. -/
theorem claim_C10_message_truncation_witness :
    ¬ badHandle longMsgBridge 0 ∧
    0 < (longMsgBridge.views (Int.toNat 0)).msg_count ∧
    (longMsgBridge.views (Int.toNat 0)).msg_lens (longMsgBridge.views (Int.toNat 0)).msg_tail =
      ((longMsgBridge.views (Int.toNat 0)).msg_queue
        (longMsgBridge.views (Int.toNat 0)).msg_tail).length ∧
    2047 < ((longMsgBridge.views (Int.toNat 0)).msg_queue
      (longMsgBridge.views (Int.toNat 0)).msg_tail).length ∧
    (pollMessage longMsgBridge 0).1 =
      some (((longMsgBridge.views (Int.toNat 0)).msg_queue
        (longMsgBridge.views (Int.toNat 0)).msg_tail).take 2047) ∧
    ((longMsgBridge.views (Int.toNat 0)).msg_queue
        (longMsgBridge.views (Int.toNat 0)).msg_tail).take 2047 ≠
      (longMsgBridge.views (Int.toNat 0)).msg_queue
        (longMsgBridge.views (Int.toNat 0)).msg_tail ∧
    (goSend_push_slot readySlot [1, 2, 3] 4).msg_queue readySlot.msg_head =
      [1, 2, 3].take (MSG_QUEUE_BUFLEN - 1) := by
  have h1 : ¬ badHandle longMsgBridge 0 := by decide
  have h2 : 0 < (longMsgBridge.views (Int.toNat 0)).msg_count := by decide
  have h3 : (longMsgBridge.views (Int.toNat 0)).msg_lens
      (longMsgBridge.views (Int.toNat 0)).msg_tail =
      ((longMsgBridge.views (Int.toNat 0)).msg_queue
        (longMsgBridge.views (Int.toNat 0)).msg_tail).length := by
    show (4000 : Nat) = (List.replicate 4000 65).length
    rw [List.length_replicate]
  have h4 : 2047 < ((longMsgBridge.views (Int.toNat 0)).msg_queue
      (longMsgBridge.views (Int.toNat 0)).msg_tail).length := by
    show (2047 : Nat) < (List.replicate 4000 65).length
    rw [List.length_replicate]
    norm_num
  obtain ⟨h5, h6⟩ := claim_C10_message_truncation.1 longMsgBridge 0 h1 h2 h3 h4
  exact ⟨h1, h2, h3, h4, h5, h6,
    (claim_C10_message_truncation.2 readySlot [1, 2, 3] 4 (by decide) (by decide)).1⟩

/-! ### VFS lemmas -/

theorem vfs_overwrite_length (l : List VfsEntry) (key : List Char) (d : List Nat) :
    (vfs_overwrite l key d).length = l.length := by
  induction l with
  | nil => rfl
  | cons e t ih =>
    unfold vfs_overwrite
    split_ifs <;> simp [ih]

theorem vfs_overwrite_map_path (l : List VfsEntry) (key : List Char) (d : List Nat) :
    (vfs_overwrite l key d).map (fun e => e.path) = l.map (fun e => e.path) := by
  induction l with
  | nil => rfl
  | cons e t ih =>
    unfold vfs_overwrite
    split_ifs with he <;> simp [ih, he]

theorem vfs_overwrite_find (l : List VfsEntry) (key : List Char) (d : List Nat)
    (h : l.any (fun e => e.path = key) = true) :
    (vfs_overwrite l key d).find? (fun e => e.path = key) = some ⟨key, d⟩ := by
  induction l with
  | nil => simp at h
  | cons e t ih =>
    by_cases he : e.path = key
    · unfold vfs_overwrite
      rw [if_pos he]
      cases e
      simp_all
    · unfold vfs_overwrite
      rw [if_neg he]
      have hrec := ih (by simpa [he] using h)
      simpa [he] using hrec

theorem vfs_filter_eq_nil (t : List VfsEntry) (key : List Char)
    (h : key ∉ t.map (fun e => e.path)) :
    t.filter (fun e => e.path = key) = [] := by
  rw [List.filter_eq_nil_iff]
  intro e he
  simp only [decide_eq_true_eq]
  intro hcontra
  exact h (List.mem_map.mpr ⟨e, he, hcontra⟩)

theorem vfs_overwrite_filter (l : List VfsEntry) (key : List Char) (d : List Nat)
    (hnod : (l.map (fun e => e.path)).Nodup)
    (h : l.any (fun e => e.path = key) = true) :
    (vfs_overwrite l key d).filter (fun e => e.path = key) = [⟨key, d⟩] := by
  induction l with
  | nil => simp at h
  | cons e t ih =>
    simp only [List.map_cons, List.nodup_cons] at hnod
    by_cases he : e.path = key
    · unfold vfs_overwrite
      rw [if_pos he]
      have hnil : t.filter (fun e => e.path = key) = [] :=
        vfs_filter_eq_nil t key (he ▸ hnod.1)
      cases e
      simp_all
    · unfold vfs_overwrite
      rw [if_neg he]
      have hrec := ih hnod.2 (by simpa [he] using h)
      simpa [he] using hrec

theorem vfs_find_append_right (l1 l2 : List VfsEntry) (p : VfsEntry → Bool)
    (h : ∀ e ∈ l1, p e = false) : (l1 ++ l2).find? p = l2.find? p := by
  rw [List.find?_append, List.find?_eq_none.mpr, Option.none_or]
  intro x hx
  simp [h x hx]

theorem register_success (l : List VfsEntry) (p : List Char) (B : List Nat)
    (hnod : (l.map (fun e => e.path)).Nodup)
    (hrc : (ul_vfs_register l p B).1 = 0) :
    ((ul_vfs_register l p B).2.map (fun e => e.path)).Nodup ∧
    (ul_vfs_register l p B).2.any (fun e => e.path = vfs_normalize_path p) = true := by
  unfold ul_vfs_register at hrc ⊢
  by_cases hany : l.any (fun e => e.path = vfs_normalize_path p) = true
  · rw [if_pos hany]
    refine ⟨?_, ?_⟩
    · rw [vfs_overwrite_map_path]
      exact hnod
    · have : ∀ (t : List VfsEntry),
          t.any (fun e => e.path = vfs_normalize_path p) = true →
          (vfs_overwrite t (vfs_normalize_path p) B).any
            (fun e => e.path = vfs_normalize_path p) = true := by
        intro t ht
        induction t with
        | nil => simp at ht
        | cons e tl ih =>
          by_cases he : e.path = vfs_normalize_path p
          · unfold vfs_overwrite
            rw [if_pos he]
            simp [he]
          · unfold vfs_overwrite
            rw [if_neg he]
            simp only [List.any_cons, Bool.or_eq_true, decide_eq_true_eq]
            exact Or.inr (by simpa using ih (by simpa [he] using ht))
      exact this l hany
  · rw [if_neg hany] at hrc ⊢
    by_cases hcap : VFS_MAX_FILES ≤ l.length
    · rw [if_pos hcap] at hrc
      norm_num at hrc
    · rw [if_neg hcap]
      have hnotin : vfs_normalize_path p ∉ l.map (fun e => e.path) := by
        intro hmem
        obtain ⟨e, hel, hep⟩ := List.mem_map.mp hmem
        exact hany (List.any_eq_true.mpr ⟨e, hel, by simp [hep]⟩)
      refine ⟨?_, ?_⟩
      · rw [List.map_append]
        simp [List.nodup_append, hnod, hnotin]
      · simp

/-- C6 (amended): normalization strips `file:///`, converts backslashes
and strips leading slashes, and is the sole VFS lookup key; for every
path-spelling pair that normalizes identically *to a non-empty key*,
when registration succeeds, the open resolves to the registered entry and
returns the registered bytes — in particular for `register("ui\\a.txt")`
followed by `open("file:///ui/a.txt")`. -/
theorem claim_C6_path_normalization :
    vfs_normalize_path ("ui\\a.txt".toList) = "ui/a.txt".toList ∧
    vfs_normalize_path ("file:///ui/a.txt".toList) = "ui/a.txt".toList ∧
    (∀ (l : List VfsEntry) (p1 p2 : List Char) (d : List Nat),
      vfs_normalize_path p1 = vfs_normalize_path p2 →
      vfs_normalize_path p1 ≠ [] →
      (ul_vfs_register l p1 d).1 = 0 →
      vfs_cb_open_file (ul_vfs_register l p1 d).2 p2 = VfsOpenResult.vfsHit d) := by
  refine ⟨by decide, by decide, ?_⟩
  intro l p1 p2 d hnorm hne hrc
  unfold vfs_cb_open_file
  rw [← hnorm, if_neg hne]
  unfold ul_vfs_register at hrc ⊢
  by_cases hany : l.any (fun e => e.path = vfs_normalize_path p1) = true
  · rw [if_pos hany]
    rw [show ((0 : Int), vfs_overwrite l (vfs_normalize_path p1) d).2 =
        vfs_overwrite l (vfs_normalize_path p1) d from rfl]
    rw [vfs_overwrite_find l (vfs_normalize_path p1) d hany]
  · rw [if_neg hany] at hrc ⊢
    by_cases hcap : VFS_MAX_FILES ≤ l.length
    · rw [if_pos hcap] at hrc
      norm_num at hrc
    · rw [if_neg hcap]
      have hall : ∀ e ∈ l, (fun x : VfsEntry =>
          decide (x.path = vfs_normalize_path p1)) e = false := by
        intro e hel
        by_contra hcon
        exact hany (List.any_eq_true.mpr ⟨e, hel, by simpa using hcon⟩)
      rw [show ((0 : Int), l ++ [({ path := vfs_normalize_path p1, data := d } : VfsEntry)]).2 =
          l ++ [({ path := vfs_normalize_path p1, data := d } : VfsEntry)] from rfl]
      rw [vfs_find_append_right l _ _ hall]
      simp [List.find?_cons]

/-- C6 counterexample: `"\\"` and `"/"` normalize identically (to the
empty key); registering the first succeeds, yet opening the second does
not return the registered bytes (the open rejects the empty key with a
NULL result), refuting the claim for *every* identically-normalizing
pair. -/
theorem claim_C6_counterexample :
    vfs_normalize_path ("\\".toList) = vfs_normalize_path ("/".toList) ∧
    (ul_vfs_register [] ("\\".toList) [7]).1 = 0 ∧
    vfs_cb_open_file (ul_vfs_register [] ("\\".toList) [7]).2 ("/".toList) ≠
      VfsOpenResult.vfsHit [7] := by decide

/-- C6 witness: the flagship pair on a fresh table. -/
theorem claim_C6_path_normalization_witness :
    vfs_normalize_path ("ui\\a.txt".toList) = vfs_normalize_path ("file:///ui/a.txt".toList) ∧
    vfs_normalize_path ("ui\\a.txt".toList) ≠ [] ∧
    (ul_vfs_register [] ("ui\\a.txt".toList) [104, 105]).1 = 0 ∧
    vfs_cb_open_file (ul_vfs_register [] ("ui\\a.txt".toList) [104, 105]).2
      ("file:///ui/a.txt".toList) = VfsOpenResult.vfsHit [104, 105] :=
  ⟨by decide, by decide, by decide,
    claim_C6_path_normalization.2.2 [] ("ui\\a.txt".toList) ("file:///ui/a.txt".toList)
      [104, 105] (by decide) (by decide) (by decide)⟩

/-- C7 (amended): for every path `p` whose normalized form is non-empty,
on a table with pairwise-distinct keys and with the first registration
succeeding, registering `p` with `B1` and again with `B2` leaves exactly
one entry for the normalized form of `p`, holding `B2`; the entry count
matches the count after the first registration, and a subsequent open of
`p` returns `B2`. -/
theorem claim_C7_register_overwrite (l : List VfsEntry) (p : List Char)
    (B1 B2 : List Nat) (hnod : (l.map (fun e => e.path)).Nodup)
    (hrc : (ul_vfs_register l p B1).1 = 0)
    (hne : vfs_normalize_path p ≠ []) :
    (ul_vfs_register (ul_vfs_register l p B1).2 p B2).1 = 0 ∧
    ((ul_vfs_register (ul_vfs_register l p B1).2 p B2).2.filter
      (fun e => e.path = vfs_normalize_path p)).length = 1 ∧
    ((ul_vfs_register (ul_vfs_register l p B1).2 p B2).2.find?
      (fun e => e.path = vfs_normalize_path p)) =
        some ⟨vfs_normalize_path p, B2⟩ ∧
    (ul_vfs_register (ul_vfs_register l p B1).2 p B2).2.length =
      (ul_vfs_register l p B1).2.length ∧
    vfs_cb_open_file (ul_vfs_register (ul_vfs_register l p B1).2 p B2).2 p =
      VfsOpenResult.vfsHit B2 := by
  obtain ⟨hnod1, hany1⟩ := register_success l p B1 hnod hrc
  have hgen : ∀ st1 : List VfsEntry,
      st1.any (fun e => e.path = vfs_normalize_path p) = true →
      ul_vfs_register st1 p B2 = (0, vfs_overwrite st1 (vfs_normalize_path p) B2) := by
    intro st1 h1
    unfold ul_vfs_register
    rw [if_pos h1]
  have hst2 : ul_vfs_register (ul_vfs_register l p B1).2 p B2 =
      (0, vfs_overwrite (ul_vfs_register l p B1).2 (vfs_normalize_path p) B2) :=
    hgen _ hany1
  refine ⟨by rw [hst2], ?_, ?_, ?_, ?_⟩
  · rw [hst2]
    rw [show ((0 : Int), vfs_overwrite (ul_vfs_register l p B1).2
        (vfs_normalize_path p) B2).2 =
        vfs_overwrite (ul_vfs_register l p B1).2 (vfs_normalize_path p) B2 from rfl]
    rw [vfs_overwrite_filter _ _ _ hnod1 hany1]
    rfl
  · rw [hst2]
    exact vfs_overwrite_find _ _ _ hany1
  · rw [hst2]
    exact vfs_overwrite_length _ _ _
  · rw [hst2]
    unfold vfs_cb_open_file
    rw [if_neg hne]
    rw [show ((0 : Int), vfs_overwrite (ul_vfs_register l p B1).2
        (vfs_normalize_path p) B2).2 =
        vfs_overwrite (ul_vfs_register l p B1).2 (vfs_normalize_path p) B2 from rfl]
    rw [vfs_overwrite_find _ _ _ hany1]

/-- C7 counterexample: for `p = "\\"` (normalized form empty) both
registrations succeed and exactly one entry holds `B2`, yet the
subsequent open of `p` does not return `B2` — it returns the NULL result
for an empty key — refuting the claim as stated for *every* path. -/
theorem claim_C7_counterexample :
    (ul_vfs_register [] ("\\".toList) [1]).1 = 0 ∧
    (ul_vfs_register (ul_vfs_register [] ("\\".toList) [1]).2 ("\\".toList) [2]).1 = 0 ∧
    ((ul_vfs_register (ul_vfs_register [] ("\\".toList) [1]).2 ("\\".toList) [2]).2.filter
      (fun e => e.path = vfs_normalize_path ("\\".toList))).length = 1 ∧
    vfs_cb_open_file
        (ul_vfs_register (ul_vfs_register [] ("\\".toList) [1]).2 ("\\".toList) [2]).2
        ("\\".toList) ≠ VfsOpenResult.vfsHit [2] := by
  decide

/-- C7 witness: registering `ui/a.txt` with `B1 = [1]` then `B2 = [2]` on
a fresh table. -/
theorem claim_C7_register_overwrite_witness :
    (([] : List VfsEntry).map (fun e => e.path)).Nodup ∧
    (ul_vfs_register [] ("ui/a.txt".toList) [1]).1 = 0 ∧
    vfs_normalize_path ("ui/a.txt".toList) ≠ [] ∧
    ((ul_vfs_register (ul_vfs_register [] ("ui/a.txt".toList) [1]).2
        ("ui/a.txt".toList) [2]).1 = 0 ∧
      ((ul_vfs_register (ul_vfs_register [] ("ui/a.txt".toList) [1]).2
          ("ui/a.txt".toList) [2]).2.filter
        (fun e => e.path = vfs_normalize_path ("ui/a.txt".toList))).length = 1 ∧
      ((ul_vfs_register (ul_vfs_register [] ("ui/a.txt".toList) [1]).2
          ("ui/a.txt".toList) [2]).2.find?
        (fun e => e.path = vfs_normalize_path ("ui/a.txt".toList))) =
          some ⟨vfs_normalize_path ("ui/a.txt".toList), [2]⟩ ∧
      (ul_vfs_register (ul_vfs_register [] ("ui/a.txt".toList) [1]).2
          ("ui/a.txt".toList) [2]).2.length =
        (ul_vfs_register [] ("ui/a.txt".toList) [1]).2.length ∧
      vfs_cb_open_file (ul_vfs_register (ul_vfs_register [] ("ui/a.txt".toList) [1]).2
          ("ui/a.txt".toList) [2]).2 ("ui/a.txt".toList) =
        VfsOpenResult.vfsHit [2]) :=
  ⟨by decide, by decide, by decide,
    claim_C7_register_overwrite [] ("ui/a.txt".toList) [1] [2]
      (by decide) (by decide) (by decide)⟩

end UlBridge
